import Mathlib

/-! # HLFHE dialect operations and the JIT argument interface

A shallow embedding of

* `compiler/lib/Dialect/HLFHE/IR/HLFHEOps.cpp`
  (`predApplyUnivariateRegion`, `HLFHE::Dot::getEffects`), and
* `compiler/include/zamalang/Support/Jit.h`
  (the member templates of `JITLambda::Argument` and the contracts of the
  member functions it declares).

Calls that C++ leaves undefined on some inputs (`front()` of an empty list,
`Block::getTerminator()` of a block without terminator) return `Except.error`
with the fault that occurred, so that "no failing access" is a statement about
the result being `Except.ok`.
-/

namespace mlir

/-! ## The part of the MLIR data model the HLFHE operations inspect -/

/-- MLIR types, as far as `isa<mlir::IntegerType>()` can tell them apart. -/
inductive MType where
  | integer (width : Nat)
  | index
  | float (width : Nat)
  | encryptedInteger (precision : Nat)
  | other (mnemonic : String)
  deriving DecidableEq, Repr

/-- The test `getType().isa<mlir::IntegerType>()`. -/
def MType.isaIntegerType : MType → Bool
  | .integer _ => true
  | _ => false

/-- An SSA value, identified by its number. -/
structure Value where
  id : Nat
  deriving DecidableEq, Repr

/-- A block argument, as far as the predicate reads it: its type. -/
structure BlockArgument where
  type : MType
  deriving DecidableEq, Repr

/-- The accessor `BlockArgument::getType()`. -/
def BlockArgument.getType (a : BlockArgument) : MType := a.type

/-- An operation: its full name (`getName().getStringRef()`) and whether it
may carry the `IsTerminator` trait. -/
structure Operation where
  name : String
  isTerminator : Bool
  deriving DecidableEq, Repr

/-- The accessor `getName().getStringRef()`. -/
def Operation.getName (op : Operation) : String := op.name

/-- A block: its arguments and its operations, in order. -/
structure Block where
  arguments : List BlockArgument
  operations : List Operation
  deriving DecidableEq, Repr

/-- A region: its list of blocks. -/
structure Region where
  blocks : List Block
  deriving DecidableEq, Repr

/-- The accesses that are not defined on every input. -/
inductive Fault where
  | frontOfEmpty
  | noTerminator
  deriving DecidableEq, Repr

/-- The accessor `Region::getBlocks()`. -/
def Region.getBlocks (r : Region) : List Block := r.blocks

/-- The accessor `Block::getArguments()`. -/
def Block.getArguments (b : Block) : List BlockArgument := b.arguments

/-- The call `front()` on a list: the first element; not defined on an empty
list. -/
def front {α : Type} : List α → Except Fault α
  | [] => .error .frontOfEmpty
  | x :: _ => .ok x

/-- The call `Block::getTerminator()` of the MLIR library: the last operation of
the block. The library asserts that the block is not empty and that its last
operation may be a terminator; when that fails there is no terminator to
return. -/
def Block.getTerminator (b : Block) : Except Fault Operation :=
  match b.operations.getLast? with
  | none => .error .noTerminator
  | some op => if op.isTerminator then .ok op else .error .noTerminator

namespace zamalang

/-- The function `predApplyUnivariateRegion` of `HLFHEOps.cpp`. -/
def predApplyUnivariateRegion (region : Region) : Except Fault Bool :=
  if region.getBlocks.length ≠ 1 then
    .ok false
  else
    (front region.getBlocks).bind fun b0 =>
      let args := b0.getArguments
      if args.length ≠ 1 then
        .ok false
      else
        (front args).bind fun a0 =>
          if !a0.getType.isaIntegerType then
            .ok false
          else
            (front region.getBlocks).bind fun b1 =>
              b1.getTerminator.bind fun terminator =>
                .ok (terminator.getName == "HLFHE.apply_univariate_return")

namespace HLFHE

/-- The memory effects of `MemoryEffects`. -/
inductive MemoryEffect where
  | Allocate
  | Free
  | Read
  | Write
  deriving DecidableEq, Repr

/-- The resources an effect can apply to. -/
inductive Resource where
  | DefaultResource
  | AutomaticAllocationScopeResource
  deriving DecidableEq, Repr

/-- One `SideEffects::EffectInstance<MemoryEffects::Effect>`. -/
structure EffectInstance where
  effect : MemoryEffect
  value : Value
  resource : Resource
  deriving DecidableEq, Repr

/-- The call `emplace_back` on a `SmallVectorImpl`. -/
def emplace_back (effects : List EffectInstance) (effect : MemoryEffect) (value : Value)
    (resource : Resource) : List EffectInstance :=
  effects ++ [⟨effect, value, resource⟩]

/-- The operands of an `HLFHE.Dot` operation. -/
structure Dot where
  lhs : Value
  rhs : Value
  out : Value
  deriving DecidableEq, Repr

/-- The member `Dot::getEffects` of `HLFHEOps.cpp`; the vector passed by
reference is returned. -/
def Dot.getEffects (op : Dot) (effects : List EffectInstance) : List EffectInstance :=
  let effects := emplace_back effects .Read op.lhs .DefaultResource
  let effects := emplace_back effects .Read op.rhs .DefaultResource
  let effects := emplace_back effects .Write op.out .DefaultResource
  effects

end HLFHE

/-! ## The JIT argument interface (`Jit.h`) -/

namespace JITLambda

/-- The error kinds of the invocation layer. -/
inductive JitError where
  | InvalidPosition
  | NotATensor
  | NotAScalar
  | WidthMismatch
  | ShapeMismatch
  | SizeMismatch
  | BufferSizeMismatch
  | MissingArgument
  | ArityMismatch
  | ResultNotReady
  | SymbolNotFound
  | LinkError
  | EncryptionError
  | DecryptionError
  deriving DecidableEq, Repr

/-- The enumeration `ResultType` of `Jit.h`. -/
inductive ResultType where
  | SCALAR
  | TENSOR
  deriving DecidableEq, Repr

/-- Modelled from the spec: the gate descriptor `CircuitGate`, whose declaration
(`KeySet.h` and what it includes) is not among the sources. Section 3 gives
it an encrypted flag, a scalar flag, for a tensor the shape, and the width in
bits of the cleartext element. -/
structure CircuitGate where
  isEncrypted : Bool
  isScalar : Bool
  shape : List Nat
  elementWidthBits : Nat
  deriving DecidableEq, Repr

/-- Modelled from the spec: the key context (`KeySet`, not among the sources), as
far as decoding uses it: `decrypt` on a ciphertext handle, which gives the
cleartext or fails. -/
structure KeySet where
  decrypt : Nat → Option Nat

/-- A caller-supplied buffer: its bytes, from the address the caller passes. -/
abbrev Buffer := List Nat

/-- A raw address, the value of a `const void *` or `const T *`. -/
abbrev Ptr := Nat

/-- The class `JITLambda::Argument`: the fields of `Jit.h`, with the contents a
pointer refers to in place of the pointer. `outputs` holds, for every result
position, the storage the native call filled (the bytes of a cleartext result,
the ciphertext handles of an encrypted one); `invoked` records whether a
successful `invoke` has run (section 4.3). -/
structure Argument where
  rawArg : List Ptr
  inputs : List (List Nat)
  outputs : List (List Nat)
  inputGates : List (CircuitGate × Nat)
  outputGates : List (CircuitGate × Nat)
  allocatedCiphertexts : List Ptr
  ciphertextBuffers : List Ptr
  keySet : KeySet
  invoked : Bool

/-- The size of `size_t`, in values. -/
def sizeMax : Nat := 2 ^ 64

/-- What a call of a member function that returns `llvm::Error` leaves behind:
success or the error, and the argument set after the call. -/
abbrev SetArgOutcome := Except JitError Unit × Argument

/-- What a call of the tensor accessor leaves behind: the error or success, the
caller's buffer and the argument set after the call. -/
abbrev GetResultOutcome := Except JitError Unit × Buffer × Argument

/-- The signature of the private `setArg(size_t pos, size_t width, const void
*data, llvm::ArrayRef<int64_t> shape)`, which `Jit.h` declares and does not
define. -/
abbrev UntypedSetArg := Argument → Nat → Nat → Ptr → List Int → SetArgOutcome

/-- The signature of `getResult(size_t pos, void *res, size_t elementSize, size_t
numElements)`. -/
abbrev UntypedGetResult := Argument → Nat → Buffer → Nat → Nat → GetResultOutcome

/-- The member template `setArg<T>(size_t pos, const T *data,
llvm::ArrayRef<int64_t> shape)` of `Jit.h`. The type `T` enters through
`sizeof(T)` only; `8 * sizeof(T)` is computed in `size_t`. The untyped overload it
calls is a parameter. -/
def setArgShape (setArg : UntypedSetArg) (sizeofT : Nat) (self : Argument) (pos : Nat)
    (data : Ptr) (shape : List Int) : SetArgOutcome :=
  setArg self pos ((8 * sizeofT) % sizeMax) data shape

/-- The member template `setArg<T>(size_t pos, const T *data, int64_t dim1)` of
`Jit.h`: the shape is the array of length one that holds `dim1`. -/
def setArgDim1 (setArg : UntypedSetArg) (sizeofT : Nat) (self : Argument) (pos : Nat)
    (data : Ptr) (dim1 : Int) : SetArgOutcome :=
  setArgShape setArg sizeofT self pos data [dim1]

/-- The member template `getResult<T>(size_t pos, T *res, size_t size)` of
`Jit.h`. The untyped overload it calls is a parameter. -/
def getResultTyped (getResult : UntypedGetResult) (sizeofT : Nat) (self : Argument)
    (pos : Nat) (res : Buffer) (size : Nat) : GetResultOutcome :=
  getResult self pos res sizeofT size

/-- Modelled from the spec: `getResultType`, declared in `Jit.h` and defined in a
file that is not among the sources. "Returns the result type at position pos. If
pos is invalid, an error is returned" (`Jit.h`); the error is `InvalidPosition`
(section 4.1). -/
def getResultType (self : Argument) (pos : Nat) : Except JitError ResultType :=
  match self.outputGates[pos]? with
  | none => .error .InvalidPosition
  | some (gate, _) => if gate.isScalar then .ok .SCALAR else .ok .TENSOR

/-- Modelled from the spec: `getResultDimensions`, declared in `Jit.h` and
defined in a file that is not among the sources: the dimensions of the tensor,
`NotATensor` for a scalar (section 4.1). -/
def getResultDimensions (self : Argument) (pos : Nat) : Except JitError (List Nat) :=
  match self.outputGates[pos]? with
  | none => .error .InvalidPosition
  | some (gate, _) => if gate.isScalar then .error .NotATensor else .ok gate.shape

/-- Modelled from the spec: `getResultVectorSize`, declared in `Jit.h` and
defined in a file that is not among the sources: the element count of the
tensor, which is the product of its dimensions, `NotATensor` for a scalar
(section 4.1). -/
def getResultVectorSize (self : Argument) (pos : Nat) : Except JitError Nat :=
  match self.outputGates[pos]? with
  | none => .error .InvalidPosition
  | some (gate, _) => if gate.isScalar then .error .NotATensor else .ok gate.shape.prod

/-- Writes `bytes` into `buf` from offset `off` on; a byte that falls behind the
end of `buf` is dropped. -/
def writeBytes (buf : Buffer) (off : Nat) : List Nat → Buffer
  | [] => buf
  | b :: bs => writeBytes (buf.set off b) (off + 1) bs

/-- The `n` low bytes of `v`, least significant first. -/
def toBytes (n v : Nat) : List Nat :=
  (List.range n).map fun i => (v / 256 ^ i) % 256

/-- Decrypts the ciphertexts `cts` one after the other and writes each cleartext,
as `elementSize` bytes, at the offset of its element, starting with element `i`;
stops at the first ciphertext that does not decrypt. -/
def decryptInto (keySet : KeySet) (elementSize : Nat) :
    List Nat → Nat → Buffer → Except JitError Unit × Buffer
  | [], _, buf => (.ok (), buf)
  | ct :: cts, i, buf =>
    match keySet.decrypt ct with
    | none => (.error .DecryptionError, buf)
    | some v =>
      decryptInto keySet elementSize cts (i + 1) (writeBytes buf (i * elementSize) (toBytes elementSize v))

/-- Modelled from the spec: the tensor accessor `getResult(size_t pos, void *res,
size_t elementSize, size_t numElements)`, declared in `Jit.h` and defined in a
file that is not among the sources. It "returns an error if the result is a
scalar, or the size of the res buffer doesn't match the size of the tensor"
(`Jit.h`); section 4.3 names the errors and adds the width check and
`ResultNotReady`, and describes the copy (cleartext) and the element-wise
decryption (encrypted). The checks on the descriptor come first, in the order
scalar, size, width, so that each of the failures of section 4.3 is reported for
every call it is stated for. -/
def getResult (self : Argument) (pos : Nat) (res : Buffer) (elementSize numElements : Nat) :
    GetResultOutcome :=
  match self.outputGates[pos]? with
  | none => (.error .InvalidPosition, res, self)
  | some (gate, _) =>
    if gate.isScalar then
      (.error .NotATensor, res, self)
    else if numElements ≠ gate.shape.prod then
      (.error .BufferSizeMismatch, res, self)
    else if 8 * elementSize ≠ gate.elementWidthBits then
      (.error .WidthMismatch, res, self)
    else if !self.invoked then
      (.error .ResultNotReady, res, self)
    else
      let storage := self.outputs.getD pos []
      if gate.isEncrypted then
        let r := decryptInto self.keySet elementSize (storage.take numElements) 0 res
        (r.1, r.2, self)
      else
        (.ok (), writeBytes res 0 (storage.take (numElements * elementSize)), self)

/-- An argument set with two results, the scalar `eint<7>` at position 0 and a
cleartext `2 x 3` tensor of bytes at position 1, before any invocation. -/
def exampleArgument : Argument where
  rawArg := []
  inputs := []
  outputs := [[], [1, 2, 3, 4, 5, 6]]
  inputGates := []
  outputGates := [(⟨true, true, [], 7⟩, 0), (⟨false, false, [2, 3], 8⟩, 1)]
  allocatedCiphertexts := []
  ciphertextBuffers := []
  keySet := ⟨fun c => some c⟩
  invoked := false

end JITLambda

/-! ## Properties of `predApplyUnivariateRegion` -/

/-- The call `front()` on a list of one element. -/
theorem front_singleton {α : Type} (x : α) : front [x] = .ok x := rfl

/-- On a region that is not a single block the predicate is `false`. -/
theorem pred_of_length_ne_one (region : Region) (h : region.getBlocks.length ≠ 1) :
    predApplyUnivariateRegion region = .ok false := by
  unfold predApplyUnivariateRegion
  rw [if_pos h]

/-- The predicate on a region of one block, block by block. -/
theorem pred_singleton (region : Region) (b : Block) (h : region.getBlocks = [b]) :
    predApplyUnivariateRegion region =
      if b.getArguments.length ≠ 1 then .ok false
      else (front b.getArguments).bind fun a0 =>
        if !a0.getType.isaIntegerType then .ok false
        else b.getTerminator.bind fun terminator =>
          .ok (terminator.getName == "HLFHE.apply_univariate_return") := by
  unfold predApplyUnivariateRegion
  rw [h]
  simp [front, Except.bind]

/-- The predicate on a region of one block with one argument. -/
theorem pred_singleton_singleton (region : Region) (b : Block) (a : BlockArgument)
    (h : region.getBlocks = [b]) (ha : b.getArguments = [a]) :
    predApplyUnivariateRegion region =
      if !a.getType.isaIntegerType then .ok false
      else b.getTerminator.bind fun terminator =>
        .ok (terminator.getName == "HLFHE.apply_univariate_return") := by
  rw [pred_singleton region b h, ha]
  simp [front, Except.bind]

/-- A list of length one is a singleton. -/
theorem eq_singleton_of_length {α : Type} (l : List α) (h : l.length = 1) : ∃ x, l = [x] := by
  match l, h with
  | [x], _ => exact ⟨x, rfl⟩

/-- Claim C1: on every region whose single block (if there is one) has a
terminator, `predApplyUnivariateRegion` returns `true` exactly when the region
has one block, that block has one argument, the argument has an integer type and
the terminator of the block is named `HLFHE.apply_univariate_return`; in every
other case it returns `false`. -/
theorem predApplyUnivariateRegion_true_iff (region : Region)
    (hterm : ∀ b, region.getBlocks = [b] → ∃ t, b.getTerminator = .ok t) :
    (predApplyUnivariateRegion region = .ok true ↔
      ∃ b a t, region.getBlocks = [b] ∧ b.getArguments = [a] ∧
        a.getType.isaIntegerType = true ∧ b.getTerminator = .ok t ∧
        t.getName = "HLFHE.apply_univariate_return") ∧
    ((¬ ∃ b a t, region.getBlocks = [b] ∧ b.getArguments = [a] ∧
        a.getType.isaIntegerType = true ∧ b.getTerminator = .ok t ∧
        t.getName = "HLFHE.apply_univariate_return") →
      predApplyUnivariateRegion region = .ok false) := by
  by_cases hlen : region.getBlocks.length = 1
  · obtain ⟨b, hb⟩ := eq_singleton_of_length _ hlen
    obtain ⟨t, ht⟩ := hterm b hb
    by_cases halen : b.getArguments.length = 1
    · obtain ⟨a, ha⟩ := eq_singleton_of_length _ halen
      rw [pred_singleton_singleton region b a hb ha, ht]
      by_cases hint : a.getType.isaIntegerType = true
      · by_cases hname : t.getName = "HLFHE.apply_univariate_return"
        · constructor
          · constructor
            · intro _
              exact ⟨b, a, t, hb, ha, hint, ht, hname⟩
            · intro _
              simp [hint, hname, Except.bind]
          · intro hno
            exact absurd ⟨b, a, t, hb, ha, hint, ht, hname⟩ hno
        · constructor
          · constructor
            · intro h
              simp [hint, hname, Except.bind] at h
            · rintro ⟨b2, a2, t2, hb2, ha2, _, ht2, hn2⟩
              rw [hb] at hb2
              cases hb2
              rw [ht] at ht2
              cases ht2
              exact absurd hn2 hname
          · intro _
            simp [hint, hname, Except.bind]
      · constructor
        · constructor
          · intro h
            simp [hint] at h
          · rintro ⟨b2, a2, t2, hb2, ha2, hi2, _, _⟩
            rw [hb] at hb2
            cases hb2
            rw [ha] at ha2
            cases ha2
            exact absurd hi2 hint
        · intro _
          simp [hint]
    · rw [pred_singleton region b hb]
      constructor
      · constructor
        · intro h
          simp [halen] at h
        · rintro ⟨b2, a2, t2, hb2, ha2, _, _, _⟩
          rw [hb] at hb2
          cases hb2
          rw [ha2] at halen
          exact absurd rfl halen
      · intro _
        simp [halen]
  · rw [pred_of_length_ne_one region hlen]
    constructor
    · constructor
      · intro h
        cases h
      · rintro ⟨b2, a2, t2, hb2, _, _, _, _⟩
        rw [hb2] at hlen
        exact absurd rfl hlen
    · intro _
      rfl

/-- Claim C1, at a concrete region: one block with one `i64` argument whose last
operation is the terminator `HLFHE.apply_univariate_return`. -/
theorem predApplyUnivariateRegion_true_iff_witness :
    (∀ b, (Region.mk [⟨[⟨.integer 64⟩], [⟨"HLFHE.apply_univariate_return", true⟩]⟩]).getBlocks = [b] →
      ∃ t, b.getTerminator = .ok t) ∧
    predApplyUnivariateRegion
      (Region.mk [⟨[⟨.integer 64⟩], [⟨"HLFHE.apply_univariate_return", true⟩]⟩]) = .ok true :=
  have hterm : ∀ b, (Region.mk [⟨[⟨.integer 64⟩],
      [⟨"HLFHE.apply_univariate_return", true⟩]⟩]).getBlocks = [b] →
      ∃ t, b.getTerminator = .ok t := by
    intro b hb
    simp only [Region.getBlocks, List.cons.injEq, and_true] at hb
    subst hb
    exact ⟨⟨"HLFHE.apply_univariate_return", true⟩, rfl⟩
  ⟨hterm, (predApplyUnivariateRegion_true_iff _ hterm).1.mpr
    ⟨⟨[⟨.integer 64⟩], [⟨"HLFHE.apply_univariate_return", true⟩]⟩, ⟨.integer 64⟩,
      ⟨"HLFHE.apply_univariate_return", true⟩, rfl, rfl, rfl, rfl, rfl⟩⟩

/-- Claim C10, at the region the claim names: a single block with exactly one
integer-typed argument and no operation. No call of `front()` fails, on any
region, and on this region the terminator lookup does: the predicate returns no
boolean. The same holds when the last operation of the block is not a
terminator. -/
theorem predApplyUnivariateRegion_no_terminator :
    (∀ region, predApplyUnivariateRegion region ≠ .error .frontOfEmpty) ∧
    predApplyUnivariateRegion (Region.mk [⟨[⟨.integer 64⟩], []⟩]) = .error .noTerminator ∧
    predApplyUnivariateRegion (Region.mk [⟨[⟨.integer 64⟩], [⟨"std.addi", false⟩]⟩]) =
      .error .noTerminator ∧
    (∀ b : Bool, predApplyUnivariateRegion (Region.mk [⟨[⟨.integer 64⟩], []⟩]) ≠ .ok b) := by
  refine ⟨?_, rfl, rfl, ?_⟩
  · intro region
    by_cases hlen : region.getBlocks.length = 1
    · obtain ⟨b, hb⟩ := eq_singleton_of_length _ hlen
      by_cases halen : b.getArguments.length = 1
      · obtain ⟨a, ha⟩ := eq_singleton_of_length _ halen
        rw [pred_singleton_singleton region b a hb ha]
        cases a.getType.isaIntegerType
        · simp
        · unfold Block.getTerminator
          cases b.operations.getLast? with
          | none => simp [Except.bind]
          | some op => cases h : op.isTerminator <;> simp [Except.bind, h]
      · rw [pred_singleton region b hb]
        simp [halen]
    · rw [pred_of_length_ne_one region hlen]
      simp
  · intro b h
    cases h

/-! ## Properties of `Dot::getEffects` -/

/-- Claim C9: for every `Dot` operation and every effects list `E`,
`Dot::getEffects` leaves `E` followed by exactly three entries: a read of `lhs`, a
read of `rhs` and a write of `out`, in this order, each on the default resource.
The entries of `E` stay where they are, the list grows by three, the declared
effects on the operands `lhs`, `rhs`, `out` are read, read, write, every write
among the new entries is the one on `out`, and every read is one on `lhs` or
`rhs`. -/
theorem Dot_getEffects_appends (op : HLFHE.Dot) (E : List HLFHE.EffectInstance) :
    op.getEffects E =
      E ++ [⟨.Read, op.lhs, .DefaultResource⟩, ⟨.Read, op.rhs, .DefaultResource⟩,
        ⟨.Write, op.out, .DefaultResource⟩] ∧
    (op.getEffects E).take E.length = E ∧
    (op.getEffects E).length = E.length + 3 ∧
    ((op.getEffects E).drop E.length).map (fun e => (e.effect, e.value)) =
      [(.Read, op.lhs), (.Read, op.rhs), (.Write, op.out)] ∧
    (∀ e ∈ (op.getEffects E).drop E.length, e.effect = .Write → e.value = op.out) ∧
    (∀ e ∈ (op.getEffects E).drop E.length, e.effect = .Read →
      e.value = op.lhs ∨ e.value = op.rhs) ∧
    (∀ e ∈ (op.getEffects E).drop E.length, e.resource = .DefaultResource) := by
  have h : op.getEffects E =
      E ++ [⟨.Read, op.lhs, .DefaultResource⟩, ⟨.Read, op.rhs, .DefaultResource⟩,
        ⟨.Write, op.out, .DefaultResource⟩] := by
    simp [HLFHE.Dot.getEffects, HLFHE.emplace_back]
  refine ⟨h, ?_, ?_, ?_, ?_, ?_, ?_⟩
  · rw [h]; simp
  · rw [h]; simp
  · rw [h]; simp
  · rw [h]; simp
  · rw [h]; simp
  · rw [h]; simp

/-- Claim C9, at a concrete operation and a list that already holds an entry. -/
theorem Dot_getEffects_appends_witness :
    (HLFHE.Dot.mk ⟨0⟩ ⟨1⟩ ⟨2⟩).getEffects [⟨.Write, ⟨0⟩, .DefaultResource⟩] =
      [⟨.Write, ⟨0⟩, .DefaultResource⟩, ⟨.Read, ⟨0⟩, .DefaultResource⟩,
        ⟨.Read, ⟨1⟩, .DefaultResource⟩, ⟨.Write, ⟨2⟩, .DefaultResource⟩] :=
  (Dot_getEffects_appends (HLFHE.Dot.mk ⟨0⟩ ⟨1⟩ ⟨2⟩) [⟨.Write, ⟨0⟩, .DefaultResource⟩]).1

/-! ## Properties of the result queries and accessors of `JITLambda::Argument` -/

namespace JITLambda

/-- A lookup in a list fails exactly behind its end. -/
theorem lookup_none_of_not_lt {α : Type} (l : List α) (pos : Nat) (h : ¬ pos < l.length) :
    l[pos]? = none := by
  simp only [List.getElem?_eq_none_iff]
  omega

/-- Claim C2: at every result position whose gate descriptor is a tensor,
`getResultVectorSize` succeeds, `getResultDimensions` succeeds, and the size is
the product of the dimensions. -/
theorem getResultVectorSize_eq_prod (self : Argument) (pos : Nat) (gate : CircuitGate)
    (off : Nat) (hpos : self.outputGates[pos]? = some (gate, off))
    (htensor : gate.isScalar = false) :
    ∃ n dims, getResultVectorSize self pos = .ok n ∧
      getResultDimensions self pos = .ok dims ∧ n = dims.prod := by
  refine ⟨gate.shape.prod, gate.shape, ?_, ?_, rfl⟩
  · simp [getResultVectorSize, hpos, htensor]
  · simp [getResultDimensions, hpos, htensor]

/-- Claim C2, at the tensor position of `exampleArgument`: six elements, the
product of the dimensions two and three. -/
theorem getResultVectorSize_eq_prod_witness :
    exampleArgument.outputGates[1]? = some (⟨false, false, [2, 3], 8⟩, 1) ∧
    ∃ n dims, getResultVectorSize exampleArgument 1 = .ok n ∧
      getResultDimensions exampleArgument 1 = .ok dims ∧ n = dims.prod :=
  ⟨rfl, getResultVectorSize_eq_prod exampleArgument 1 ⟨false, false, [2, 3], 8⟩ 1 rfl rfl⟩

/-- Claim C3: at every result position whose gate descriptor is a scalar, the
tensor accessor `getResult(pos, res, elementSize, numElements)` fails with
`NotATensor` for every buffer and all sizes, and leaves the buffer of the caller
(and the argument set) as they were. -/
theorem getResult_scalar_NotATensor (self : Argument) (pos : Nat) (gate : CircuitGate)
    (off : Nat) (res : Buffer) (elementSize numElements : Nat)
    (hpos : self.outputGates[pos]? = some (gate, off)) (hscalar : gate.isScalar = true) :
    getResult self pos res elementSize numElements = (.error .NotATensor, res, self) := by
  simp [getResult, hpos, hscalar]

/-- Claim C3, at the scalar position of `exampleArgument`. -/
theorem getResult_scalar_NotATensor_witness :
    exampleArgument.outputGates[0]? = some (⟨true, true, [], 7⟩, 0) ∧
    getResult exampleArgument 0 [9, 9] 1 2 = (.error .NotATensor, [9, 9], exampleArgument) :=
  ⟨rfl, getResult_scalar_NotATensor exampleArgument 0 ⟨true, true, [], 7⟩ 0 [9, 9] 1 2 rfl rfl⟩

/-- Claim C4: at every tensor result position, for every element count `size`
that differs from the vector size `getResultVectorSize` gives, the tensor
accessor `getResult<T>(pos, res, size)` fails with `BufferSizeMismatch`, for
every element type, and so does the untyped accessor for every element size;
the buffer is left as it was. -/
theorem getResult_size_mismatch (self : Argument) (pos : Nat) (res : Buffer)
    (sizeofT size n : Nat) (hsize : getResultVectorSize self pos = .ok n) (hne : size ≠ n) :
    getResultTyped getResult sizeofT self pos res size =
      (.error .BufferSizeMismatch, res, self) ∧
    getResult self pos res sizeofT size = (.error .BufferSizeMismatch, res, self) := by
  have key : getResult self pos res sizeofT size = (.error .BufferSizeMismatch, res, self) := by
    unfold getResultVectorSize at hsize
    unfold getResult
    cases hlook : self.outputGates[pos]? with
    | none => simp [hlook] at hsize
    | some p =>
      obtain ⟨gate, off⟩ := p
      simp only [hlook] at hsize
      cases hs : gate.isScalar with
      | true => simp [hs] at hsize
      | false =>
        simp only [hs, Bool.false_eq_true, if_false] at hsize
        cases hsize
        simp [hne, hs]
  exact ⟨key, key⟩

/-- Claim C4, at the tensor position of `exampleArgument`, whose vector size is
six, with a buffer of five elements. -/
theorem getResult_size_mismatch_witness :
    getResultVectorSize exampleArgument 1 = .ok 6 ∧
    getResultTyped getResult 1 exampleArgument 1 [0, 0, 0, 0, 0] 5 =
      (.error .BufferSizeMismatch, [0, 0, 0, 0, 0], exampleArgument) :=
  ⟨rfl, (getResult_size_mismatch exampleArgument 1 [0, 0, 0, 0, 0] 1 5 6 rfl (by decide)).1⟩

/-- Claim C5: `getResultType` fails with `InvalidPosition` at every position that
is not a result position, and returns `SCALAR` or `TENSOR` as the gate
descriptor says at every result position. The answer is a function of the gate
descriptors alone: it is the same in every argument set with these descriptors,
whether or not the native call has run. -/
theorem getResultType_spec (self : Argument) (pos : Nat) :
    (¬ pos < self.outputGates.length → getResultType self pos = .error .InvalidPosition) ∧
    (∀ gate off, self.outputGates[pos]? = some (gate, off) →
      getResultType self pos = .ok (if gate.isScalar then .SCALAR else .TENSOR)) ∧
    (pos < self.outputGates.length →
      getResultType self pos = .ok .SCALAR ∨ getResultType self pos = .ok .TENSOR) ∧
    (∀ other : Argument, other.outputGates = self.outputGates →
      getResultType other pos = getResultType self pos) ∧
    getResultType { self with invoked := false, outputs := [] } pos = getResultType self pos := by
  refine ⟨?_, ?_, ?_, ?_, rfl⟩
  · intro h
    simp [getResultType, lookup_none_of_not_lt _ _ h]
  · intro gate off h
    cases hs : gate.isScalar <;> simp [getResultType, h, hs]
  · intro h
    have hl : self.outputGates[pos]? = some self.outputGates[pos] := List.getElem?_eq_getElem h
    cases hs : (self.outputGates[pos]).1.isScalar
    · right
      simp [getResultType, hl, hs]
    · left
      simp [getResultType, hl, hs]
  · intro other h
    simp [getResultType, h]

/-- Claim C5, on `exampleArgument`, for which no invocation has run: position 0
is a scalar, position 1 a tensor, position 2 is no result position. -/
theorem getResultType_spec_witness :
    exampleArgument.invoked = false ∧
    getResultType exampleArgument 0 = .ok .SCALAR ∧
    getResultType exampleArgument 1 = .ok .TENSOR ∧
    getResultType exampleArgument 2 = .error .InvalidPosition :=
  ⟨rfl, (getResultType_spec exampleArgument 0).2.1 _ _ rfl,
    (getResultType_spec exampleArgument 1).2.1 _ _ rfl,
    (getResultType_spec exampleArgument 2).1 (by decide)⟩

/-! ## Properties of the member templates of `JITLambda::Argument` -/

/-- Claim C6: for every element type (through its size in bytes), position,
buffer and count, the typed accessor `getResult<T>(pos, res, size)` gives exactly
the outcome of the untyped `getResult(pos, res, elementSize, numElements)` called
with the same position and buffer, the size of `T` as element size and `size` as
element count, whatever the untyped accessor does; it fails exactly when the
untyped call fails, with the same error, and succeeds exactly when it succeeds. -/
theorem getResultTyped_eq_untyped (untyped : UntypedGetResult) (sizeofT : Nat)
    (self : Argument) (pos : Nat) (res : Buffer) (size : Nat) :
    getResultTyped untyped sizeofT self pos res size = untyped self pos res sizeofT size ∧
    (∀ e, (getResultTyped untyped sizeofT self pos res size).1 = .error e ↔
      (untyped self pos res sizeofT size).1 = .error e) ∧
    ((getResultTyped untyped sizeofT self pos res size).1 = .ok () ↔
      (untyped self pos res sizeofT size).1 = .ok ()) :=
  ⟨rfl, fun _ => Iff.rfl, Iff.rfl⟩

/-- Claim C7 fails for an element type of `2 ^ 61` bytes: `8 * sizeof(T)` wraps
to 0 in `size_t`, so the untyped `setArg` is called with the width 0 and not
with `8 * 2 ^ 61`. With an untyped `setArg` that rejects the width 0 and accepts
every other width the forwarded call fails where the call with the width
`8 * 2 ^ 61` succeeds; hence the typed `setArg` does not forward the width
`8 * s` for every `s`. -/
theorem setArgShape_width_wraps :
    setArgShape (fun self _ width _ _ =>
        (if width = 0 then .error .WidthMismatch else .ok (), self))
      (2 ^ 61) exampleArgument 0 4096 [2, 3] = (.error .WidthMismatch, exampleArgument) ∧
    (fun (self : Argument) (_ : Nat) (width : Nat) (_ : Ptr) (_ : List Int) =>
        ((if width = 0 then .error .WidthMismatch else .ok (), self) : SetArgOutcome))
      exampleArgument 0 (8 * 2 ^ 61) 4096 [2, 3] = (.ok (), exampleArgument) ∧
    ¬ ∀ (untyped : UntypedSetArg) (s : Nat) (self : Argument) (pos : Nat) (data : Ptr)
        (shape : List Int),
      setArgShape untyped s self pos data shape = untyped self pos (8 * s) data shape := by
  refine ⟨?_, ?_, ?_⟩
  · simp [setArgShape, sizeMax]
  · simp
  · intro h
    have h1 := h (fun self _ width _ _ =>
        (if width = 0 then .error .WidthMismatch else .ok (), self))
      (2 ^ 61) exampleArgument 0 4096 [2, 3]
    simp [setArgShape, sizeMax] at h1

/-- Claim C7, amended: for every element type `T` of `s` bytes, the typed
`setArg<T>(pos, data, shape)` calls the untyped `setArg` with the same position,
data and shape and with the width `8 * s` as `size_t` computes it, and returns
the outcome of that call as it is; the width is exactly `8 * s` whenever `8 * s`
is a value of `size_t`, and it is 8, 16, 32, 64 for element types of 1, 2, 4, 8
bytes. -/
theorem setArgShape_forwards (untyped : UntypedSetArg) (s : Nat) (self : Argument)
    (pos : Nat) (data : Ptr) (shape : List Int) :
    setArgShape untyped s self pos data shape =
      untyped self pos ((8 * s) % sizeMax) data shape ∧
    (8 * s < sizeMax →
      setArgShape untyped s self pos data shape = untyped self pos (8 * s) data shape) ∧
    setArgShape untyped 1 self pos data shape = untyped self pos 8 data shape ∧
    setArgShape untyped 2 self pos data shape = untyped self pos 16 data shape ∧
    setArgShape untyped 4 self pos data shape = untyped self pos 32 data shape ∧
    setArgShape untyped 8 self pos data shape = untyped self pos 64 data shape := by
  refine ⟨rfl, ?_, rfl, rfl, rfl, rfl⟩
  intro hs
  unfold setArgShape
  rw [Nat.mod_eq_of_lt hs]

/-- Claim C7, amended, for a four-byte element type and an untyped `setArg` that accepts
the width 32 only. -/
theorem setArgShape_forwards_witness :
    8 * 4 < sizeMax ∧
    setArgShape (fun self _ width _ _ =>
        (if width = 32 then .ok () else .error .WidthMismatch, self))
      4 exampleArgument 0 4096 [2, 3] = (.ok (), exampleArgument) :=
  ⟨by decide, (setArgShape_forwards _ 4 exampleArgument 0 4096 [2, 3]).2.1 (by decide)⟩

/-- Claim C8: for every element type, position, data pointer and dimension, the
one-dimensional `setArg<T>(pos, data, dim1)` has the outcome of the general
`setArg<T>(pos, data, shape)` called with the shape `[dim1]` of rank one, whatever
the untyped `setArg` does. -/
theorem setArgDim1_eq_setArgShape (untyped : UntypedSetArg) (sizeofT : Nat) (self : Argument)
    (pos : Nat) (data : Ptr) (dim1 : Int) :
    setArgDim1 untyped sizeofT self pos data dim1 =
      setArgShape untyped sizeofT self pos data [dim1] :=
  rfl

end JITLambda

end zamalang

end mlir
